import Mathlib

/-!
# Defacto2/archive — verification of the format-resolution and extraction engine

A shallow embedding of the Go package `github.com/Defacto2/archive`
(format classification, ZIP fallback-chain dispatch, the generic
copy/run/cleanup shim, the hard-link extension workaround, the pkzip
introspector contract and the exit-status diagnostics), together with
proofs about the embedded definitions.

External effects (subprocess runs, the filesystem) are supplied by oracle
structures; each embedded function returns its Go result together with the
ordered list of side-effect events it performs, so ordering and cleanup
properties can be stated directly.  A Go runtime panic (slice bounds) is
modelled as `Option.none`.
-/

namespace Archive

/-! ## Models of the Go standard-library string functions used by the source -/

/-- Model of Go `strings.Split(s, sep)` for a single-character separator,
on the character list: splits at every occurrence, keeping empty fields,
and yields one (empty) field for the empty input. -/
def goSplitChars (sep : Char) : List Char → List Char → List (List Char)
  | [], acc => [acc.reverse]
  | c :: rest, acc =>
    if c = sep then acc.reverse :: goSplitChars sep rest []
    else goSplitChars sep rest (c :: acc)

/-- Model of Go `strings.Split(s, sep)` for a single-character separator. -/
def goSplit (sep : Char) (s : String) : List String :=
  (goSplitChars sep s.data []).map String.mk

/-- Model of Go `strings.Join(elems, " ")`. -/
def joinSpace : List String → String
  | [] => ""
  | [x] => x
  | x :: xs => x ++ " " ++ joinSpace xs

/-- Model of Go `bytes.Lines`: each line is yielded with its trailing
newline; a final line without a newline is also yielded. -/
def goLinesAux : List Char → List Char → List String
  | [], acc => if acc.isEmpty then [] else [String.mk acc.reverse]
  | c :: rest, acc =>
    if c = '\n' then String.mk (c :: acc).reverse :: goLinesAux rest []
    else goLinesAux rest (c :: acc)

/-- Model of Go `bytes.Lines` on a string (the source is ASCII tool output,
so bytes and characters coincide). -/
def goLines (s : String) : List String := goLinesAux s.data []

/-- Go's `unicode.IsSpace` restricted to the ASCII whitespace characters. -/
def fIsSpace (c : Char) : Bool :=
  c = ' ' || c = '\t' || c = '\n' || c = '\x0b' || c = '\x0c' || c = '\r'

/-- The character-list part of Go `strings.TrimSpace`. -/
def trimChars (l : List Char) : List Char :=
  ((l.dropWhile fIsSpace).reverse.dropWhile fIsSpace).reverse

/-- Model of Go `strings.TrimSpace` (ASCII whitespace). -/
def goTrimSpace (s : String) : String := String.mk (trimChars s.data)

/-- A string is blank when every character is whitespace; this includes `""`.
"No empty or whitespace-only entries" is `isBlank f = false` for each entry. -/
def isBlank (s : String) : Bool := s.data.all fIsSpace

/-- Model of the Go slice expression `s[lo:hi]` on a `[]string`:
out-of-range bounds are a runtime panic, modelled as `none`. -/
def goSlice (s : List String) (lo hi : Nat) : Option (List String) :=
  if lo ≤ hi ∧ hi ≤ s.length then some ((s.drop lo).take (hi - lo)) else none

/-- Model of the Go slice expression `s[lo:hi]` on a string of ASCII bytes:
out-of-range bounds are a runtime panic, modelled as `none`. -/
def goStrSlice (s : String) (lo hi : Nat) : Option String :=
  if lo ≤ hi ∧ hi ≤ s.length then some (String.mk ((s.data.drop lo).take (hi - lo)))
  else none

/-- Model of Go `bytes.Contains` on strings. -/
def strContains (s pat : String) : Bool := decide (pat.data <:+: s.data)

/-- Model of Go `bytes.HasPrefix` / `strings.HasPrefix` on strings. -/
def strHasPre (s pat : String) : Bool := pat.data.isPrefixOf s.data

/-- ASCII lower-casing of one character (Go `unicode.ToLower` on ASCII). -/
def asciiLower (c : Char) : Char :=
  if 'A' ≤ c ∧ c ≤ 'Z' then Char.ofNat (c.toNat + 32) else c

/-- Model of Go `strings.EqualFold` restricted to ASCII case folding,
which covers every extension string the package compares. -/
def equalFold (s t : String) : Bool :=
  s.data.map asciiLower == t.data.map asciiLower

/-- Scan used by `filepathExt`: walk the reversed path, collecting the
suffix seen so far, stopping at the final dot or at a path separator. -/
def filepathExtAux : List Char → List Char → String
  | [], _ => ""
  | c :: rest, seen =>
    if c = '/' then ""
    else if c = '.' then String.mk ('.' :: seen)
    else filepathExtAux rest (c :: seen)

/-- Model of Go `path/filepath.Ext`: the suffix of the final path element
beginning at its final dot, or `""` when it has no dot. -/
def filepathExt (path : String) : String := filepathExtAux path.data.reverse []

/-- Model of Go `path/filepath.Base` (slash-separated paths). -/
def filepathBase (path : String) : String :=
  if path = "" then "."
  else
    let trimmed := (path.data.reverse.dropWhile (· = '/')).reverse
    if trimmed.isEmpty then "/"
    else String.mk (trimmed.reverse.takeWhile (· ≠ '/')).reverse

/-- Model of Go `path/filepath.Join` for two already-clean components,
as the source uses it (`filepath.Join(dst, filepath.Base(src))`). -/
def filepathJoin (a b : String) : String :=
  if a = "" then b else if b = "" then a else a ++ "/" ++ b

/-- Model of Go `path/filepath.IsAbs` on Unix. -/
def isAbs (p : String) : Bool := strHasPre p "/"

/-- Model of Go `path/filepath.Abs`: an absolute path is returned as given,
a relative one is joined to the working directory `wd`. -/
def filepathAbs (wd p : String) : String := if isAbs p then p else filepathJoin wd p

/-! ## Go error values

Errors are a small inductive: the package's sentinel errors, subprocess
exit codes, opaque operating-system errors, and `fmt.Errorf` wrapping with
one or three `%w` verbs.  `errorsIs` is Go `errors.Is`, which unwraps
through every `%w` operand. -/

inductive GoErr where
  | errPassParse : GoErr
  | errProg : GoErr
  | errPath : GoErr
  | errDest : GoErr
  | errExt : GoErr
  | errRead : GoErr
  | errHLExt : GoErr
  | errTest : GoErr
  | errNotArchive : GoErr
  | errNotImplemented : GoErr
  | exit (code : Nat) : GoErr
  | sys (msg : String) : GoErr
  | wrap (msg : String) (e : GoErr) : GoErr
  | wrap3 (msg : String) (e1 e2 e3 : GoErr) : GoErr
deriving DecidableEq, Repr

/-- Model of Go `errors.Is(e, target)`. -/
def errorsIs (e target : GoErr) : Bool :=
  match e with
  | .wrap msg inner => (GoErr.wrap msg inner = target) || errorsIs inner target
  | .wrap3 msg a b c =>
      (GoErr.wrap3 msg a b c = target) || errorsIs a target ||
        errorsIs b target || errorsIs c target
  | e' => e' = target

/-! ## `foundLHA` (src/unnamed/part_002:129-148)

The special-case matcher for the two historical LHA magic spellings.
`none` models a Go runtime panic: `s[2:4]` is evaluated whenever the
first word is `"lha"`, `len(s) ≥ 3` and the first three words are not
`"lha archive data"`, and it panics when `len(s) = 3`. -/

/-- Embedding of `foundLHA`: returns true if the LHA file type is matched
in the magic string; `none` is a Go slice-bounds panic. -/
def foundLHA (magic : String) : Option Bool :=
  let s := goSplit ' ' magic
  match s with
  | [] => none
  | w0 :: _ =>
    if w0 = "lharc" then some true
    else if w0 ≠ "lha" then some false
    else if s.length < 3 then some false
    else
      match goSlice s 0 3 with
      | none => none
      | some s03 =>
        if joinSpace s03 = "lha archive data" then some true
        else
          match goSlice s 2 4 with
          | none => none
          | some s24 =>
            if joinSpace s24 = "archive data" then some true else some false

/-! ## The pkzip introspector

The `github.com/Defacto2/archive/pkzip` package itself is not part of this
tree; only its tests (`TestPkzip`, `TestExitStatus` in src/fild_test.go) and
its callers are.  Its contract is therefore modelled from the spec (§3,
§4.4, §4.5). -/

/-- Modelled from the spec: the pkzip `CompressionMethod` enumeration
(spec §3): 0=Stored, 1=Shrunk, 2..5=Reduced factors 1-4, 6=Imploded,
8=Deflated, 9=EnhancedDeflated, every other code Reserved. -/
inductive Compression where
  | Stored
  | Shrunk
  | Reduced1
  | Reduced2
  | Reduced3
  | Reduced4
  | Imploded
  | Deflated
  | EnhancedDeflated
  | Reserved
deriving DecidableEq, Repr

/-- Modelled from the spec: the 1:1 mapping from the 16-bit method code of
a ZIP entry header to the `Compression` enumeration; reserved/unknown codes
map to the literal Reserved label rather than erroring. -/
def Compression.ofCode (code : Nat) : Compression :=
  match code with
  | 0 => .Stored
  | 1 => .Shrunk
  | 2 => .Reduced1
  | 3 => .Reduced2
  | 4 => .Reduced3
  | 5 => .Reduced4
  | 6 => .Imploded
  | 8 => .Deflated
  | 9 => .EnhancedDeflated
  | _ => .Reserved

/-- A method is usable by modern store/deflate-only tooling iff it is
Stored or Deflated (spec §3 UsabilityVerdict). -/
def Compression.usable (m : Compression) : Bool :=
  m = .Stored || m = .Deflated

/-- One ZIP central-directory entry as the introspector reads it: the name,
the 16-bit compression-method code, and the encryption bit of the
general-purpose flags field. -/
structure ZipEntry where
  name : String
  methodCode : Nat
  encrypted : Bool
deriving DecidableEq, Repr

/-- Modelled from the spec: `pkzip.Methods` — reads the entry headers in
archival order; if any entry is flagged encrypted the call fails with the
password-parse error rather than returning partial results; otherwise it
returns each entry's method through `Compression.ofCode`, in entry order. -/
def Methods (entries : List ZipEntry) : Except GoErr (List Compression) :=
  if entries.any (·.encrypted) then .error .errPassParse
  else .ok (entries.map (fun e => Compression.ofCode e.methodCode))

/-- Modelled from the spec: `pkzip.Zip` (`IsUsableByStandardTooling`) —
true iff every method returned by `Methods` is Stored or Deflated;
on a `Methods` failure the verdict is false and the error is surfaced. -/
def pkzipZip (entries : List ZipEntry) : Bool × Option GoErr :=
  match Methods entries with
  | .error e => (false, some e)
  | .ok ms => (ms.all Compression.usable, none)

/-! ## The ZIP fallback chains

`Extractor.extractZip` (src/unnamed/part_001:614-626) and `Extractor.Zips`
(src/unnamed/part_002:328-348) are embedded over an oracle holding the
outcome of `pkzip.Methods` on the source and the error result of each
adapter subprocess (`none` = the adapter succeeded).  Each embedding
returns the Go result together with the ordered list of adapters invoked. -/

/-- The fallback adapters of the ZIP extraction chain. -/
inductive Step where
  | unzip
  | hwzip
  | bsdtar
deriving DecidableEq, Repr

/-- Oracle for one ZIP-family extraction request: the result of
`pkzip.Methods(x.Source)` and of each adapter invocation. -/
structure ZipChain where
  methodsResult : Except GoErr (List Compression)
  zip : Option GoErr
  ziphw : Option GoErr
  tar : Option GoErr

/-- The adapter cascade of `extractZip` after the password gate:
`x.Zip`, then `x.ZipHW`, then `x.Bsdtar`, each tried only after the
previous failed; when all three fail the error wraps all three causes
(`fmt.Errorf("archive zip extract %w: %w: %w", err1, err2, err3)`). -/
def extractZipChain (env : ZipChain) : Except GoErr Unit × List Step :=
  match env.zip with
  | none => (.ok (), [.unzip])
  | some err1 =>
    match env.ziphw with
    | none => (.ok (), [.unzip, .hwzip])
    | some err2 =>
      match env.tar with
      | none => (.ok (), [.unzip, .hwzip, .bsdtar])
      | some err3 =>
          (.error (.wrap3 "archive zip extract" err1 err2 err3),
            [.unzip, .hwzip, .bsdtar])

/-- Embedding of `Extractor.extractZip` (src/unnamed/part_001:614-626):
if `pkzip.Methods` failed with the password-parse error the call returns
that wrapped error at once; otherwise the three-step cascade runs. -/
def extractZip (env : ZipChain) (targets : List String) :
    Except GoErr Unit × List Step :=
  match env.methodsResult with
  | .error e =>
    if errorsIs e .errPassParse then (.error (.wrap "archive zip extract" e), [])
    else extractZipChain env
  | .ok _ => extractZipChain env

/-- The adapter cascade of `Zips` after the password gate: `x.Zip` first;
on failure, target-filtered requests go straight to `x.Tar` (bsdtar), while
unfiltered requests try `x.ZipHW()` and then `x.Tar()`; the terminal error
wraps only the first step's cause
(`fmt.Errorf("archive zip extract all methods: %w", err)`). -/
def zipsChain (env : ZipChain) (targets : List String) :
    Except GoErr Unit × List Step :=
  match env.zip with
  | none => (.ok (), [.unzip])
  | some err =>
    if targets.length > 0 then
      match env.tar with
      | none => (.ok (), [.unzip, .bsdtar])
      | some _ =>
          (.error (.wrap "archive zip extract all methods" err), [.unzip, .bsdtar])
    else
      match env.ziphw with
      | none => (.ok (), [.unzip, .hwzip])
      | some _ =>
        match env.tar with
        | none => (.ok (), [.unzip, .hwzip, .bsdtar])
        | some _ =>
            (.error (.wrap "archive zip extract all methods" err),
              [.unzip, .hwzip, .bsdtar])

/-- Embedding of `Extractor.Zips` (src/unnamed/part_002:328-348). -/
def Zips (env : ZipChain) (targets : List String) :
    Except GoErr Unit × List Step :=
  match env.methodsResult with
  | .error e =>
    if errorsIs e .errPassParse then (.error (.wrap "archive zip extract" e), [])
    else zipsChain env targets
  | .ok _ => zipsChain env targets

/-! ## Exit-status diagnostics and `rezip.Test`

`pkzip.ExitStatus` is modelled from the spec (§3, §4.5): the documented
Info-ZIP unzip exit-status convention mapped into the closed diagnostic
enumeration, with unrecognized codes going to `UnknownStatus`.
`rezip.Test` (src/rezip/rezip.go:121-151) is embedded from the source. -/

/-- Modelled from the spec: the `ExitDiagnostic` enumeration of §3; the
constructor for the archive-not-found diagnostic keeps the source's name
`ZipNotFound` (see `TestExitStatus`, src/fild_test.go:220-229). -/
inductive ExitDiag where
  | Normal
  | Warning
  | ArchiveStructureError
  | SevereArchiveError
  | InsufficientMemory
  | DecompressionFailure
  | PrematureEndOfArchive
  | ZipNotFound
  | NoMatchingEntries
  | DiskFull
  | UserAbort
  | InvalidParameters
  | UnknownStatus
deriving DecidableEq, Repr

/-- Modelled from the spec: `pkzip.ExitStatus` — the documented Info-ZIP
unzip convention (0 normal, 1 warning, 2/3 archive-structure and severe
errors, 4-8 memory, 9 zipfile not found, 10 bad options, 11 no matching
entries, 50 disk full, 51 premature EOF, 80 user abort, 81 unsupported
compression); every unrecognized code maps to `UnknownStatus`. -/
def ExitStatus (code : Nat) : ExitDiag :=
  match code with
  | 0 => .Normal
  | 1 => .Warning
  | 2 => .ArchiveStructureError
  | 3 => .SevereArchiveError
  | 4 | 5 | 6 | 7 | 8 => .InsufficientMemory
  | 9 => .ZipNotFound
  | 10 => .InvalidParameters
  | 11 => .NoMatchingEntries
  | 50 => .DiskFull
  | 51 => .PrematureEndOfArchive
  | 80 => .UserAbort
  | 81 => .DecompressionFailure
  | _ => .UnknownStatus

/-- The diagnostic display strings; `ZipNotFound` prints
"Zip file not found" (src/fild_test.go:228). -/
def ExitDiag.str : ExitDiag → String
  | .Normal => "Normal"
  | .Warning => "Warning"
  | .ArchiveStructureError => "Archive structure error"
  | .SevereArchiveError => "Severe archive error"
  | .InsufficientMemory => "Insufficient memory"
  | .DecompressionFailure => "Decompression failure"
  | .PrematureEndOfArchive => "Premature end of archive"
  | .ZipNotFound => "Zip file not found"
  | .NoMatchingEntries => "No matching entries"
  | .DiskFull => "Disk full"
  | .UserAbort => "User abort"
  | .InvalidParameters => "Invalid parameters"
  | .UnknownStatus => "Unknown status"

/-- The `os.FileInfo` facts the package consults. -/
structure FileStat where
  isDir : Bool
  size : Nat
deriving DecidableEq, Repr

/-- Oracle for one `rezip.Test` call: the `unzip` lookup, the `os.Stat` of
the named file, and the exit code of `unzip -t` (`none` = exit status 0). -/
structure TestEnv where
  unzipPath : Option String
  statResult : Option FileStat
  runExit : Option Nat

/-- Embedding of `rezip.Test` (src/rezip/rezip.go:121-151): directories and
empty files fail outright; a failing `unzip -t` subprocess is accepted
exactly when its exit status classifies as Normal or Warning. -/
def rezipTest (env : TestEnv) : Option GoErr :=
  match env.unzipPath with
  | none => some (.wrap "rezip test failed to find rezip executable" (.sys "lookpath"))
  | some _ =>
    match env.statResult with
    | none => some (.wrap "rezip test failed to stat file" (.sys "stat"))
    | some inf =>
      if inf.isDir then some (.wrap "is a directory" .errTest)
      else if inf.size = 0 then some (.wrap "is empty" .errTest)
      else
        match env.runExit with
        | none => none
        | some code =>
          match ExitStatus code with
          | .Normal => none
          | .Warning => none
          | diag => some (.wrap diag.str .errTest)

/-! ## The generic shim, `HardLink` and the extractors built on them

Filesystem and subprocess side effects are recorded as an ordered event
trace; the oracles supply each external outcome. -/

/-- The side-effect events an extractor performs, in order. -/
inductive FsEvent where
  | copy (src dst : String)
  | run (prog workdir : String) (args : List String)
  | remove (path : String)
  | link (oldname newname : String)
deriving DecidableEq, Repr

/-- `Run` (src/unnamed/part_001:743-746): the program and its extract verb
for the generic extractor. -/
structure Run where
  Program : String
  Extract : String

/-- `Extractor` (src/unnamed/part_001:543-546). -/
structure Extractor where
  Source : String
  Destination : String

/-- Oracle for one `Generic` call: the `os.Stat` of the destination, the
program lookup, the outcome of `helper.Duplicate`, and the subprocess run
with its captured standard error. -/
structure GenericEnv where
  dstStat : Option FileStat
  progPath : Option String
  dupOk : Bool
  runErr : Option GoErr
  stderr : String

/-- Embedding of `Extractor.Generic` (src/unnamed/part_001:760-796):
stat/IsDir check on the destination, program lookup, copy of the source
into the destination, subprocess run with `cmd.Dir` set to the
destination, and a deferred removal of the copy that fires on both the
error and the success exit of the run. -/
def Generic (env : GenericEnv) (x : Extractor) (run : Run)
    (targets : List String) : Except GoErr Unit × List FsEvent :=
  let src := x.Source
  let dst := x.Destination
  match env.dstStat with
  | none => (.error (.wrap dst (.sys "stat")), [])
  | some st =>
    if !st.isDir then (.error (.wrap dst .errPath), [])
    else
      match env.progPath with
      | none => (.error (.wrap "archive extract" (.sys "lookpath")), [])
      | some prog =>
        let srcInDst := filepathJoin dst (filepathBase src)
        if !env.dupOk then (.error (.wrap "archive duplicate" (.sys "dup")), [])
        else
          let trace := [FsEvent.copy src srcInDst,
            FsEvent.run prog dst ([run.Extract, filepathBase src] ++ targets),
            FsEvent.remove srcInDst]
          match env.runErr with
          | none => (.ok (), trace)
          | some e =>
            if env.stderr ≠ "" then (.error (.wrap env.stderr .errProg), trace)
            else (.error (.wrap prog e), trace)

/-- Oracle for `HardLink`: whether `os.Lstat`/`os.Stat` see a given path,
whether `filepath.Abs` succeeds, the working directory it uses, and the
outcome of `os.Link`. -/
structure LinkEnv where
  lstatOk : String → Bool
  statNotExist : String → Bool
  absOk : Bool
  wd : String
  linkOk : Bool

/-- Embedding of `HardLink` (src/unnamed/part_002:209-233): rejects a
`require` argument with no dot; returns `""` when the source extension
already matches case-insensitively; returns an already existing link name
as-is; otherwise hard-links `src` to the absolute form of `src+require`. -/
def HardLink (env : LinkEnv) (require src : String) :
    (String × Option GoErr) × List FsEvent :=
  if filepathExt require = "" then (("", some (.wrap require .errHLExt)), [])
  else if equalFold (filepathExt src) require then (("", none), [])
  else
    let name := src ++ require
    if env.lstatOk name then ((name, none), [])
    else if env.statNotExist name then
      if !env.absOk then (("", some (.wrap "hardlink filepath abs" (.sys "abs"))), [])
      else
        let newname := filepathAbs env.wd name
        if !env.linkOk then (("", some (.wrap "hardlink os link" (.sys "link"))), [])
        else ((newname, none), [FsEvent.link src newname])
    else (("", none), [])

/-- Oracle for one `Extractor.ARJ` call. -/
structure ArjEnv where
  dstStat : Option FileStat
  progPath : Option String
  link : LinkEnv
  runErr : Option GoErr
  stderr : String

/-- Embedding of `Extractor.ARJ` (src/arj.go:101-144): destination check,
`arj` lookup, the `HardLink(arjx, src)` workaround, the subprocess call on
the (possibly linked) name, and the deferred removal of a created link
that fires on both the error and the success exit of the run. -/
def ExtractorARJ (env : ArjEnv) (x : Extractor) (targets : List String) :
    Except GoErr Unit × List FsEvent :=
  let src := x.Source
  let dst := x.Destination
  match env.dstStat with
  | none => (.error (.wrap dst (.sys "stat")), [])
  | some inf =>
    if !inf.isDir then (.error (.wrap dst .errPath), [])
    else
      match env.progPath with
      | none => (.error (.wrap "extract arj" (.sys "lookpath")), [])
      | some prog =>
        match HardLink env.link ".arj" src with
        | ((_, some e), ev) => (.error (.wrap "extract arj" e), ev)
        | ((name, none), ev) =>
          let newname := if name ≠ "" then name else src
          let cleanup := if name ≠ "" then [FsEvent.remove name] else []
          let trace := ev ++
            [FsEvent.run prog "" (["x", "-y", newname] ++ targets ++ ["-ht" ++ dst])]
            ++ cleanup
          match env.runErr with
          | none => (.ok (), trace)
          | some e =>
            if env.stderr ≠ "" then (.error (.wrap env.stderr .errProg), trace)
            else (.error (.wrap prog e), trace)

/-- Oracle for one `Extractor.Zip7` call: the `7zz` lookup, the result of
re-probing the source with `MagicExt`, and the subprocess run. -/
structure Zip7Env where
  progPath : Option String
  magic : Except GoErr String
  runErr : Option GoErr
  stderr : String

/-- Embedding of `Extractor.Zip7` (src/zip7.go:105-143): after the lookup
and empty-destination checks it re-probes the source's magic type and
returns the wrapped `ErrExt` without running the subprocess unless the
probe yields ".7z". -/
def ExtractorZip7 (env : Zip7Env) (x : Extractor) (targets : List String) :
    Except GoErr Unit × List FsEvent :=
  let src := x.Source
  let dst := x.Destination
  match env.progPath with
  | none => (.error (.wrap "extractor 7z" (.sys "lookpath")), [])
  | some prog =>
    if dst = "" then (.error .errDest, [])
    else
      match env.magic with
      | .error e => (.error (.wrap "extractor 7z" e), [])
      | .ok ext =>
        if ext ≠ ".7z" then (.error (.wrap src .errExt), [])
        else
          let args := ["x", "-aoa", "-bb0", "-y", "-o" ++ dst, src] ++ targets
          match env.runErr with
          | none => (.ok (), [FsEvent.run prog "" args])
          | some e =>
            if env.stderr ≠ "" then
              (.error (.wrap env.stderr .errProg), [FsEvent.run prog "" args])
            else (.error (.wrap prog e), [FsEvent.run prog "" args])

/-! ## Content readers and the listing interface

Each `Content` reader shells out to a list command and parses its output;
the oracle supplies the lookup, the captured output and the subprocess
error.  The parsers are embedded from the current named source files. -/

/-- Oracle for one content-reader call. -/
structure ReadEnv where
  progPath : Option String
  out : String
  stderr : String
  cmdErr : Option GoErr

/-- The `slices.DeleteFunc(files, func(s) { return strings.TrimSpace(s) == "" })`
idiom shared by the Zip, Rar and Tar readers and by `commander`. -/
def deleteBlank (files : List String) : List String :=
  files.filter (fun s => goTrimSpace s != "")

/-- Embedding of `Content.Rar` (src/rar.go:20-47): `unrar lb` output split
on newlines with blank entries deleted. -/
def contentRar (env : ReadEnv) : Except GoErr (List String) :=
  match env.progPath with
  | none => .error (.wrap "archive unrar reader" (.sys "lookpath"))
  | some _ =>
    match env.cmdErr with
    | some e => .error (.wrap "archive unrar output" e)
    | none =>
      if env.out.length = 0 then .error .errRead
      else .ok (deleteBlank (goSplit '\n' env.out))

/-- Embedding of `Content.Zip` (src/fild_test.go zip.go section, 62-92):
`zipinfo -1` output split on newlines with blank entries deleted; the
broken-zip branch (error with captured stderr and some stdout) returns
success leaving the file list untouched (empty for a fresh `Content`). -/
def contentZip (env : ReadEnv) : Except GoErr (List String) :=
  match env.progPath with
  | none => .error (.wrap "content zipinfo" (.sys "lookpath"))
  | some _ =>
    match env.cmdErr with
    | some e =>
      if env.stderr ≠ "" && env.out.length > 0 then .ok []
      else .error (.wrap "content zipinfo" e)
    | none =>
      if env.out.length = 0 then .error .errRead
      else .ok (deleteBlank (goSplit '\n' env.out))

/-- Embedding of `Content.Tar` (src/tar.go:20-44): `bsdtar -tf` output
split on newlines with blank entries deleted. -/
def contentTar (env : ReadEnv) : Except GoErr (List String) :=
  match env.progPath with
  | none => .error (.wrap "content tar" (.sys "lookpath"))
  | some _ =>
    match env.cmdErr with
    | some e => .error (.wrap "content tar" e)
    | none =>
      if env.out.length = 0 then .error .errRead
      else .ok (deleteBlank (goSplit '\n' env.out))

/-- The column offset of the NAME field in `lha -l` output:
`len("---------- ----------- ------- ------ ------------ ")`. -/
def lhaPadd : Nat := ("---------- ----------- ------- ------ ------------ ").length

/-- The fixed-width line scan of `lhaFiles` (src/lha.go:46-85): table
header and separator rows bump `skipped`; rows outside the table body are
ignored; short rows are skipped; each body row contributes its NAME column
trimmed, dropping rows whose name trims to empty. -/
def lhaFilesAux : List String → Nat → List String → List String
  | [], _, files => files.reverse
  | line :: rest, skipped, files =>
    if strHasPre line "PERMSSN    UID  GID" then lhaFilesAux rest (skipped + 1) files
    else if strHasPre line "---------- -----------" then
      lhaFilesAux rest (skipped + 1) files
    else if skipped = 0 then lhaFilesAux rest skipped files
    else if skipped > 2 then files.reverse
    else if line.length < lhaPadd then lhaFilesAux rest skipped files
    else
      let file := goTrimSpace (String.mk (line.data.drop lhaPadd))
      if file = "" then lhaFilesAux rest skipped files
      else lhaFilesAux rest skipped (file :: files)

/-- Embedding of `lhaFiles` (src/lha.go:46-85). -/
def lhaFiles (out : String) : List String := lhaFilesAux (goLines out) 0 []

/-- The non-overlapping left-to-right replacement
`bytes.ReplaceAll(output, "  ", "")` used by `notLHA`. -/
def dropDoubleSpaces : List Char → List Char
  | ' ' :: ' ' :: rest => dropDoubleSpaces rest
  | c :: rest => c :: dropDoubleSpaces rest
  | [] => []

/-- Embedding of `notLHA` (src/lha.go:88-94). -/
def notLHA (out : String) : Bool :=
  out.length = 0 ||
    strContains (String.mk (dropDoubleSpaces out.data)) "Total 0 files 0"

/-- Embedding of `Content.LHA` (src/lha.go:21-44). -/
def contentLHA (env : ReadEnv) : Except GoErr (List String) :=
  match env.progPath with
  | none => .error (.wrap "archive lha reader" (.sys "lookpath"))
  | some _ =>
    match env.cmdErr with
    | some e => .error (.wrap "archive lha output" e)
    | none =>
      if notLHA env.out then .error .errRead
      else .ok (lhaFiles env.out)

/-- The line scan of `arjFiles` (src/arj.go:53-86): rows between the two
header markers contribute their first twelve bytes verbatim — there is no
blank-entry filter, and a short row is a Go slice-bounds panic (`none`). -/
def arjFilesAux : List String → Nat → List String → Option (List String)
  | [], _, files => some files.reverse
  | line :: rest, skipped, files =>
    if strHasPre line "Filename       Original" then arjFilesAux rest (skipped + 1) files
    else if strHasPre line "------------ ----------" then
      arjFilesAux rest (skipped + 1) files
    else if skipped = 0 then arjFilesAux rest skipped files
    else if skipped > 2 then some files.reverse
    else
      match goStrSlice line 0 12 with
      | none => none
      | some file => arjFilesAux rest skipped (file :: files)

/-- Embedding of `arjFiles` (src/arj.go:53-86); `none` is a runtime panic. -/
def arjFiles (out : String) : Option (List String) := arjFilesAux (goLines out) 0 []

/-- Embedding of `notArj` (src/arj.go:89-94). -/
def notArj (out : String) : Bool :=
  out.length = 0 || strContains out "is not an ARJ archive"

/-- Embedding of `Content.ARJ` (src/arj.go:20-50); the outer `Option` is a
runtime panic escaping from `arjFiles`. -/
def contentARJ (env : ReadEnv) (lenv : LinkEnv) (src : String) :
    Option (Except GoErr (List String)) :=
  match env.progPath with
  | none => some (.error (.wrap "content arj" (.sys "lookpath")))
  | some _ =>
    match HardLink lenv ".arj" src with
    | ((_, some e), _) => some (.error (.wrap "content arj" e))
    | ((_, none), _) =>
      match env.cmdErr with
      | some e => some (.error (.wrap "content arj" e))
      | none =>
        if notArj env.out then some (.error .errRead)
        else
          match arjFiles env.out with
          | none => none
          | some files => some (.ok files)

/-- Embedding of `commander` (src/unnamed/part_002:505-519): the outcome of
`Content.Read` is supplied by the oracle; on success the blank entries are
deleted before returning. -/
def commander (readResult : Except GoErr (List String)) :
    Except GoErr (List String) :=
  match readResult with
  | .error e => .error (.wrap "commander failed" e)
  | .ok files => .ok (deleteBlank files)

/-- Embedding of the result branches of `List` (src/unnamed/part_002:470-501):
when `ExtractSource` fails the call falls back to `commander`; when it
succeeds the walked relative paths of the extracted files are returned
without any filter. -/
def listFiles (extractResult : Option (List String))
    (readResult : Except GoErr (List String)) : Except GoErr (List String) :=
  match extractResult with
  | none => commander readResult
  | some walked => .ok walked

/-! ## Helper lemmas -/

theorem errorsIs_self (e : GoErr) : errorsIs e e = true := by
  cases e <;> simp [errorsIs]

theorem errorsIs_wrap_of (msg : String) (e target : GoErr)
    (h : errorsIs e target = true) : errorsIs (GoErr.wrap msg e) target = true := by
  simp [errorsIs, h]

theorem errorsIs_wrap3_of (msg : String) (a b c target : GoErr)
    (h : errorsIs a target = true ∨ errorsIs b target = true ∨
      errorsIs c target = true) :
    errorsIs (GoErr.wrap3 msg a b c) target = true := by
  rcases h with h | h | h <;> simp [errorsIs, h]

theorem usable_iff (m : Compression) :
    Compression.usable m = true ↔ m = .Stored ∨ m = .Deflated := by
  cases m <;> simp [Compression.usable]

theorem blank_of_trim_ne (s : String) (h : goTrimSpace s ≠ "") :
    isBlank s = false := by
  by_contra hb
  apply h
  have hall : s.data.all fIsSpace = true := by
    simpa [isBlank] using hb
  have hdrop : s.data.dropWhile fIsSpace = [] :=
    List.dropWhile_eq_nil_iff.mpr (by simpa [List.all_eq_true] using hall)
  simp [goTrimSpace, trimChars, hdrop]

theorem trim_not_blank (s : String) (h : goTrimSpace s ≠ "") :
    isBlank (goTrimSpace s) = false := by
  set r := (s.data.dropWhile fIsSpace).reverse.dropWhile fIsSpace with hr
  have ht : (goTrimSpace s).data = r.reverse := by
    simp [goTrimSpace, trimChars, hr]
  have hrne : r ≠ [] := by
    intro hnil
    apply h
    have : (goTrimSpace s).data = [] := by simp [ht, hnil]
    exact String.ext (by simpa using this)
  have hhead : fIsSpace (r.head hrne) = false := by
    have := List.head_dropWhile_not fIsSpace
      ((s.data.dropWhile fIsSpace).reverse) (by simpa [hr] using hrne)
    simpa [← hr] using this
  have hmem : r.head hrne ∈ (goTrimSpace s).data := by
    rw [ht]
    exact List.mem_reverse.mpr (List.head_mem hrne)
  simp only [isBlank]
  rw [Bool.eq_false_iff]
  intro hall
  have := (List.all_eq_true.mp hall) _ hmem
  simp [hhead] at this

theorem deleteBlank_no_blank (files : List String) (f : String)
    (hf : f ∈ deleteBlank files) : isBlank f = false := by
  have := List.of_mem_filter hf
  exact blank_of_trim_ne f (by simpa using this)

theorem lhaFilesAux_no_blank (lines : List String) (skipped : Nat)
    (acc : List String) (hacc : ∀ f ∈ acc, isBlank f = false) :
    ∀ f ∈ lhaFilesAux lines skipped acc, isBlank f = false := by
  induction lines generalizing skipped acc with
  | nil =>
    intro f hf
    exact hacc f (by simpa [lhaFilesAux] using hf)
  | cons line rest ih =>
    intro f hf
    rw [lhaFilesAux] at hf
    split at hf
    · exact ih _ _ hacc f hf
    · split at hf
      · exact ih _ _ hacc f hf
      · split at hf
        · exact ih _ _ hacc f hf
        · split at hf
          · exact hacc f (by simpa using hf)
          · split at hf
            · exact ih _ _ hacc f hf
            · have hf' : f ∈ (if goTrimSpace (String.mk (line.data.drop lhaPadd)) = ""
                  then lhaFilesAux rest skipped acc
                  else lhaFilesAux rest skipped
                    (goTrimSpace (String.mk (line.data.drop lhaPadd)) :: acc)) := hf
              split at hf'
              · exact ih _ _ hacc f hf'
              · refine ih _ _ ?_ f hf'
                intro g hg
                rcases List.mem_cons.mp hg with hg | hg
                · subst hg
                  exact trim_not_blank _ (by assumption)
                · exact hacc g hg

/-! ## Claim theorems -/

/-- Claim C5 (code_bug evidence): `foundLHA` recognizes both historical
spellings — a first word "lharc", and "lha ... archive data" in both its
three-word and four-word forms — and rejects unrelated text that merely
begins with "lha"; but on a magic string whose first word is "lha" with
exactly three space-separated fields not spelling "lha archive data"
(for example "lha x y") the Go expression `s[2:4]` is evaluated with
`len(s) = 3` and the function panics (`none`), so the matcher is not
total as the claim requires. -/
theorem C5_foundLHA_evaluation :
    foundLHA "lharc" = some true ∧
    foundLHA "lharc 1.x archive" = some true ∧
    foundLHA "lha archive data" = some true ∧
    foundLHA "lha 2.x archive data" = some true ∧
    foundLHA "lhamburger helper" = some false ∧
    foundLHA "lha" = some false ∧
    foundLHA "lha x y" = none := by
  decide

/-- Claim C1: when `pkzip.Methods` on the source fails with the
password-parse error, both ZIP dispatchers (`extractZip` of part_001 and
`Zips` of part_002) return immediately with a failure that
`errors.Is`-matches `ErrPassParse`, and invoke none of the fallback
adapters (unzip, hwzip, bsdtar). -/
theorem C1_password_stops_zip_chain (env : ZipChain) (targets : List String)
    (e : GoErr) (hm : env.methodsResult = .error e)
    (hp : errorsIs e .errPassParse = true) :
    ((extractZip env targets).1 = .error (.wrap "archive zip extract" e) ∧
      errorsIs (GoErr.wrap "archive zip extract" e) .errPassParse = true ∧
      (extractZip env targets).2 = []) ∧
    ((Zips env targets).1 = .error (.wrap "archive zip extract" e) ∧
      (Zips env targets).2 = []) := by
  refine ⟨⟨?_, errorsIs_wrap_of _ _ _ hp, ?_⟩, ?_, ?_⟩ <;>
    simp [extractZip, Zips, hm, hp]

/-- Witness for C1 at a concrete password-protected oracle. -/
theorem C1_password_stops_zip_chain_w :
    (((extractZip ⟨.error .errPassParse, some .errProg, some .errProg,
        some .errProg⟩ []).1 = .error (.wrap "archive zip extract" .errPassParse) ∧
      errorsIs (GoErr.wrap "archive zip extract" .errPassParse) .errPassParse = true ∧
      (extractZip ⟨.error .errPassParse, some .errProg, some .errProg,
        some .errProg⟩ []).2 = []) ∧
    ((Zips ⟨.error .errPassParse, some .errProg, some .errProg,
        some .errProg⟩ []).1 = .error (.wrap "archive zip extract" .errPassParse) ∧
      (Zips ⟨.error .errPassParse, some .errProg, some .errProg,
        some .errProg⟩ []).2 = [])) :=
  C1_password_stops_zip_chain _ [] .errPassParse rfl (by decide)

/-- Claim C2: the `extractZip` fallback chain (src/unnamed/part_001:614-626)
tries unzip, then hwzip, then bsdtar, strictly in that order; it stops with
success as soon as a step succeeds; and only when all three fail does it
return a composite failure that embeds each step's individual failure
reason. -/
theorem C2_extractZip_chain (env : ZipChain) (targets : List String)
    (hnp : ∀ e, env.methodsResult = .error e → errorsIs e .errPassParse = false) :
    (env.zip = none → extractZip env targets = (.ok (), [.unzip])) ∧
    (∀ e1, env.zip = some e1 → env.ziphw = none →
      extractZip env targets = (.ok (), [.unzip, .hwzip])) ∧
    (∀ e1 e2, env.zip = some e1 → env.ziphw = some e2 → env.tar = none →
      extractZip env targets = (.ok (), [.unzip, .hwzip, .bsdtar])) ∧
    (∀ e1 e2 e3, env.zip = some e1 → env.ziphw = some e2 → env.tar = some e3 →
      ∃ err, extractZip env targets = (.error err, [.unzip, .hwzip, .bsdtar]) ∧
        errorsIs err e1 = true ∧ errorsIs err e2 = true ∧
        errorsIs err e3 = true) := by
  have hred : extractZip env targets = extractZipChain env := by
    cases hm : env.methodsResult with
    | error e => simp [extractZip, hm, hnp e hm]
    | ok ms => simp [extractZip, hm]
  refine ⟨?_, ?_, ?_, ?_⟩
  · intro h1
    simp [hred, extractZipChain, h1]
  · intro e1 h1 h2
    simp [hred, extractZipChain, h1, h2]
  · intro e1 e2 h1 h2 h3
    simp [hred, extractZipChain, h1, h2, h3]
  · intro e1 e2 e3 h1 h2 h3
    refine ⟨GoErr.wrap3 "archive zip extract" e1 e2 e3, ?_, ?_, ?_, ?_⟩
    · simp [hred, extractZipChain, h1, h2, h3]
    · exact errorsIs_wrap3_of _ _ _ _ _ (Or.inl (errorsIs_self e1))
    · exact errorsIs_wrap3_of _ _ _ _ _ (Or.inr (Or.inl (errorsIs_self e2)))
    · exact errorsIs_wrap3_of _ _ _ _ _ (Or.inr (Or.inr (errorsIs_self e3)))

/-- Witness for C2 at a concrete oracle where all three adapters fail. -/
theorem C2_extractZip_chain_w :
    ((⟨.ok [], some (.sys "z"), some (.sys "h"), some (.sys "t")⟩ : ZipChain).zip
        = none →
      extractZip ⟨.ok [], some (.sys "z"), some (.sys "h"), some (.sys "t")⟩ []
        = (.ok (), [.unzip])) ∧
    (∀ e1, (⟨.ok [], some (.sys "z"), some (.sys "h"), some (.sys "t")⟩ :
        ZipChain).zip = some e1 →
      (⟨.ok [], some (.sys "z"), some (.sys "h"), some (.sys "t")⟩ :
        ZipChain).ziphw = none →
      extractZip ⟨.ok [], some (.sys "z"), some (.sys "h"), some (.sys "t")⟩ []
        = (.ok (), [.unzip, .hwzip])) ∧
    (∀ e1 e2, (⟨.ok [], some (.sys "z"), some (.sys "h"), some (.sys "t")⟩ :
        ZipChain).zip = some e1 →
      (⟨.ok [], some (.sys "z"), some (.sys "h"), some (.sys "t")⟩ :
        ZipChain).ziphw = some e2 →
      (⟨.ok [], some (.sys "z"), some (.sys "h"), some (.sys "t")⟩ :
        ZipChain).tar = none →
      extractZip ⟨.ok [], some (.sys "z"), some (.sys "h"), some (.sys "t")⟩ []
        = (.ok (), [.unzip, .hwzip, .bsdtar])) ∧
    (∀ e1 e2 e3, (⟨.ok [], some (.sys "z"), some (.sys "h"), some (.sys "t")⟩ :
        ZipChain).zip = some e1 →
      (⟨.ok [], some (.sys "z"), some (.sys "h"), some (.sys "t")⟩ :
        ZipChain).ziphw = some e2 →
      (⟨.ok [], some (.sys "z"), some (.sys "h"), some (.sys "t")⟩ :
        ZipChain).tar = some e3 →
      ∃ err, extractZip ⟨.ok [], some (.sys "z"), some (.sys "h"), some (.sys "t")⟩
          [] = (.error err, [.unzip, .hwzip, .bsdtar]) ∧
        errorsIs err e1 = true ∧ errorsIs err e2 = true ∧
        errorsIs err e3 = true) :=
  C2_extractZip_chain _ [] (fun e h => by cases h)

/-- Claim C4: the `Zips` chain (src/unnamed/part_002:328-348) on a
target-filtered request skips the hwzip adapter — after a unzip failure it
proceeds directly to bsdtar — and hwzip appears in a `Zips` trace only for
requests with no target filter. -/
theorem C4_zips_skip_hwzip (env : ZipChain) (targets : List String)
    (hnp : ∀ e, env.methodsResult = .error e → errorsIs e .errPassParse = false)
    (ht : targets ≠ []) :
    (env.zip = none → Zips env targets = (.ok (), [.unzip])) ∧
    (∀ e1, env.zip = some e1 → (Zips env targets).2 = [.unzip, .bsdtar]) ∧
    Step.hwzip ∉ (Zips env targets).2 ∧
    (∀ ts, Step.hwzip ∈ (Zips env ts).2 → ts = []) := by
  have hred : ∀ ts, Zips env ts = zipsChain env ts := by
    intro ts
    cases hm : env.methodsResult with
    | error e => simp [Zips, hm, hnp e hm]
    | ok ms => simp [Zips, hm]
  have hlen : targets.length > 0 := List.length_pos.mpr ht
  refine ⟨?_, ?_, ?_, ?_⟩
  · intro h1
    simp [hred, zipsChain, h1]
  · intro e1 h1
    cases h3 : env.tar <;> simp [hred, zipsChain, h1, h3, hlen]
  · cases h1 : env.zip with
    | none => simp [hred, zipsChain, h1]
    | some e1 => cases h3 : env.tar <;> simp [hred, zipsChain, h1, h3, hlen]
  · intro ts hmem
    by_contra hts
    have hlen' : ts.length > 0 := List.length_pos.mpr hts
    rw [hred ts] at hmem
    cases h1 : env.zip with
    | none => simp [zipsChain, h1] at hmem
    | some e1 => cases h3 : env.tar <;> simp [zipsChain, h1, h3, hlen'] at hmem

/-- Witness for C4 at a concrete target-filtered oracle. -/
theorem C4_zips_skip_hwzip_w :
    ((⟨.ok [], some (.sys "z"), none, some (.sys "t")⟩ : ZipChain).zip = none →
      Zips ⟨.ok [], some (.sys "z"), none, some (.sys "t")⟩ ["A.TXT"]
        = (.ok (), [.unzip])) ∧
    (∀ e1, (⟨.ok [], some (.sys "z"), none, some (.sys "t")⟩ : ZipChain).zip
        = some e1 →
      (Zips ⟨.ok [], some (.sys "z"), none, some (.sys "t")⟩ ["A.TXT"]).2
        = [.unzip, .bsdtar]) ∧
    Step.hwzip ∉ (Zips ⟨.ok [], some (.sys "z"), none, some (.sys "t")⟩
      ["A.TXT"]).2 ∧
    (∀ ts, Step.hwzip ∈ (Zips ⟨.ok [], some (.sys "z"), none, some (.sys "t")⟩
      ts).2 → ts = []) :=
  C4_zips_skip_hwzip _ ["A.TXT"] (fun e h => by cases h) (by simp)

/-- Claim C3 (spec-modelled pkzip): on an archive with no encrypted entry,
`Methods` returns exactly the per-entry compression methods in archival
entry order — in particular `[Stored, Deflated]` for a Store-then-Deflate
archive — reserved codes map to the Reserved label, and the usability
verdict (`pkzip.Zip` / IsUsableByStandardTooling) is true iff every
returned method is Stored or Deflated. -/
theorem C3_methods_order_and_usability (entries : List ZipEntry)
    (henc : ∀ e ∈ entries, e.encrypted = false) :
    Methods entries = .ok (entries.map (fun e => Compression.ofCode e.methodCode)) ∧
    (∀ ms, Methods entries = .ok ms →
      ((pkzipZip entries).1 = true ↔ ∀ m ∈ ms, m = .Stored ∨ m = .Deflated)) ∧
    Methods [⟨"STORE.TXT", 0, false⟩, ⟨"DEFLATE.TXT", 8, false⟩]
      = .ok [.Stored, .Deflated] ∧
    (∀ code, code = 7 ∨ 10 ≤ code → Compression.ofCode code = .Reserved) ∧
    (pkzipZip [⟨"STORE.TXT", 0, false⟩, ⟨"SHRINK.TXT", 1, false⟩]).1 = false := by
  have hany : entries.any (·.encrypted) = false := by
    rw [List.any_eq_false]
    intro e he
    simp [henc e he]
  refine ⟨?_, ?_, rfl, ?_, rfl⟩
  · simp [Methods, hany]
  · intro ms hms
    have : (pkzipZip entries).1 = ms.all Compression.usable := by
      simp [pkzipZip, hms]
    rw [this, List.all_eq_true]
    constructor
    · intro h m hm
      exact (usable_iff m).mp (h m hm)
    · intro h m hm
      exact (usable_iff m).mpr (h m hm)
  · intro code hcode
    unfold Compression.ofCode
    split
    any_goals rfl
    all_goals omega

/-- Witness for C3 at a concrete Store-then-Deflate entry list. -/
theorem C3_methods_order_and_usability_w :
    (Methods ([⟨"STORE.TXT", 0, false⟩, ⟨"DEFLATE.TXT", 8, false⟩] : List ZipEntry)
      = .ok (([⟨"STORE.TXT", 0, false⟩, ⟨"DEFLATE.TXT", 8, false⟩] :
          List ZipEntry).map (fun e => Compression.ofCode e.methodCode)) ∧
    (∀ ms, Methods ([⟨"STORE.TXT", 0, false⟩, ⟨"DEFLATE.TXT", 8, false⟩] :
        List ZipEntry) = .ok ms →
      ((pkzipZip ([⟨"STORE.TXT", 0, false⟩, ⟨"DEFLATE.TXT", 8, false⟩] :
          List ZipEntry)).1 = true ↔
        ∀ m ∈ ms, m = .Stored ∨ m = .Deflated)) ∧
    Methods [⟨"STORE.TXT", 0, false⟩, ⟨"DEFLATE.TXT", 8, false⟩]
      = .ok [.Stored, .Deflated] ∧
    (∀ code, code = 7 ∨ 10 ≤ code → Compression.ofCode code = .Reserved) ∧
    (pkzipZip [⟨"STORE.TXT", 0, false⟩, ⟨"SHRINK.TXT", 1, false⟩]).1 = false) :=
  C3_methods_order_and_usability
    ([⟨"STORE.TXT", 0, false⟩, ⟨"DEFLATE.TXT", 8, false⟩] : List ZipEntry)
    (by decide)

/-- Claim C6 counterexample: with a valid destination directory but the
program absent from the search path, `Generic` performs no copy at all —
the program lookup precedes the copy, so the claimed "otherwise the source
archive is copied into the destination" and the claimed
"program-lookup failure after copy" exit path are both refuted. -/
theorem C6_counterexample_lookup_before_copy :
    (Generic ⟨some ⟨true, 0⟩, none, true, none, ""⟩ ⟨"SRC.ARC", "/dest"⟩
        ⟨"arc", "x"⟩ []).1 = .error (.wrap "archive extract" (.sys "lookpath")) ∧
    (Generic ⟨some ⟨true, 0⟩, none, true, none, ""⟩ ⟨"SRC.ARC", "/dest"⟩
        ⟨"arc", "x"⟩ []).2 = [] := by
  exact ⟨rfl, rfl⟩

/-- Claim C6 as amended: `Generic` fails with nothing copied when the
destination is missing or not a directory; the program lookup also happens
before the copy, so a lookup (or copy) failure leaves nothing in the
destination; otherwise the source archive is copied into the destination,
the program runs with its working directory set to the destination, and
the copied-in archive is removed on every exit path after the copy —
subprocess error and success alike. -/
theorem C6_generic_copy_run_cleanup (env : GenericEnv) (x : Extractor)
    (run : Run) (targets : List String) :
    (env.dstStat = none →
      (Generic env x run targets).1 = .error (.wrap x.Destination (.sys "stat")) ∧
      (Generic env x run targets).2 = []) ∧
    (∀ st, env.dstStat = some st → st.isDir = false →
      (Generic env x run targets).1 = .error (.wrap x.Destination .errPath) ∧
      (Generic env x run targets).2 = []) ∧
    (∀ st, env.dstStat = some st → st.isDir = true → env.progPath = none →
      (Generic env x run targets).2 = []) ∧
    (∀ st prog, env.dstStat = some st → st.isDir = true →
      env.progPath = some prog → env.dupOk = false →
      (Generic env x run targets).2 = []) ∧
    (∀ st prog, env.dstStat = some st → st.isDir = true →
      env.progPath = some prog → env.dupOk = true →
      (Generic env x run targets).2 =
        [FsEvent.copy x.Source (filepathJoin x.Destination (filepathBase x.Source)),
          FsEvent.run prog x.Destination
            ([run.Extract, filepathBase x.Source] ++ targets),
          FsEvent.remove (filepathJoin x.Destination (filepathBase x.Source))] ∧
      ((Generic env x run targets).1 = .ok () ↔ env.runErr = none)) ∧
    (∀ p, FsEvent.copy x.Source p ∈ (Generic env x run targets).2 →
      FsEvent.remove p ∈ (Generic env x run targets).2) := by
  refine ⟨?_, ?_, ?_, ?_, ?_, ?_⟩
  · intro h1
    exact ⟨by simp [Generic, h1], by simp [Generic, h1]⟩
  · intro st h1 h2
    exact ⟨by simp [Generic, h1, h2], by simp [Generic, h1, h2]⟩
  · intro st h1 h2 h3
    simp [Generic, h1, h2, h3]
  · intro st prog h1 h2 h3 h4
    simp [Generic, h1, h2, h3, h4]
  · intro st prog h1 h2 h3 h4
    constructor
    · cases h5 : env.runErr with
      | none => simp [Generic, h1, h2, h3, h4, h5]
      | some e =>
        by_cases h6 : env.stderr = "" <;>
          simp [Generic, h1, h2, h3, h4, h5, h6]
    · cases h5 : env.runErr with
      | none => simp [Generic, h1, h2, h3, h4, h5]
      | some e =>
        by_cases h6 : env.stderr = "" <;>
          simp [Generic, h1, h2, h3, h4, h5, h6]
  · intro p hp
    cases h1 : env.dstStat with
    | none => simp [Generic, h1] at hp
    | some st =>
      by_cases h2 : st.isDir = true
      · cases h3 : env.progPath with
        | none => simp [Generic, h1, h2, h3] at hp
        | some prog =>
          by_cases h4 : env.dupOk = true
          · cases h5 : env.runErr with
            | none =>
              simp [Generic, h1, h2, h3, h4, h5] at hp ⊢
              simp [hp]
            | some e =>
              by_cases h6 : env.stderr = "" <;>
                · simp [Generic, h1, h2, h3, h4, h5, h6] at hp ⊢
                  simp [hp]
          · have h4' : env.dupOk = false := by simpa using h4
            simp [Generic, h1, h2, h3, h4'] at hp
      · have h2' : st.isDir = false := by simpa using h2
        simp [Generic, h1, h2'] at hp

/-- Witness for C6 at a concrete oracle with a failing subprocess. -/
theorem C6_generic_copy_run_cleanup_w :
    (Generic ⟨some ⟨true, 0⟩, some "/bin/arc", true, some (.exit 1), ""⟩
        ⟨"/tmp/SRC.ARC", "/dest"⟩ ⟨"arc", "x"⟩ []).2 =
      [FsEvent.copy "/tmp/SRC.ARC"
          (filepathJoin "/dest" (filepathBase "/tmp/SRC.ARC")),
        FsEvent.run "/bin/arc" "/dest" (["x", filepathBase "/tmp/SRC.ARC"] ++ []),
        FsEvent.remove (filepathJoin "/dest" (filepathBase "/tmp/SRC.ARC"))] ∧
    ((Generic ⟨some ⟨true, 0⟩, some "/bin/arc", true, some (.exit 1), ""⟩
        ⟨"/tmp/SRC.ARC", "/dest"⟩ ⟨"arc", "x"⟩ []).1 = .ok () ↔
      (⟨some ⟨true, 0⟩, some "/bin/arc", true, some (.exit 1), ""⟩ :
        GenericEnv).runErr = none) :=
  (C6_generic_copy_run_cleanup _ _ _ _).2.2.2.2.1 ⟨true, 0⟩ "/bin/arc" rfl rfl rfl rfl

/-- Claim C7 counterexample: for a source lacking the required extension
whose link name already exists on disk, `HardLink` creates nothing and
returns the pre-existing name as given (here a relative path), refuting
the claimed "when it lacks the extension, HardLink creates a link ... and
returns that absolute path". -/
theorem C7_counterexample_existing_link_name :
    HardLink ⟨fun _ => true, fun _ => false, true, "/wd", true⟩ ".arj" "ARCHIVE"
      = (("ARCHIVE.arj", none), []) ∧
    equalFold (filepathExt "ARCHIVE") ".arj" = false ∧
    isAbs "ARCHIVE.arj" = false := by
  exact ⟨rfl, by decide, by decide⟩

/-- Claim C7 as amended: when the source already carries the required
extension (case-insensitively) `HardLink` returns `""` with no error and
creates nothing; when it lacks the extension and the link name does not
already exist, `HardLink` creates a link at the absolute form of
source-path plus extension, pointing at the real file, and returns that
absolute path — never renaming or copying the original (every event it can
emit is a link creation); when the link name already exists it is returned
as-is with nothing created; and the ARJ extractor runs the subprocess on
the link name and removes the link afterwards on success and failure
alike. -/
theorem C7_hardlink_and_arj (env : LinkEnv) (require src : String) :
    (filepathExt require ≠ "" → equalFold (filepathExt src) require = true →
      HardLink env require src = (("", none), [])) ∧
    (filepathExt require ≠ "" → equalFold (filepathExt src) require = false →
      env.lstatOk (src ++ require) = false →
      env.statNotExist (src ++ require) = true →
      env.absOk = true → env.linkOk = true →
      HardLink env require src =
        ((filepathAbs env.wd (src ++ require), none),
          [FsEvent.link src (filepathAbs env.wd (src ++ require))])) ∧
    (filepathExt require ≠ "" → equalFold (filepathExt src) require = false →
      env.lstatOk (src ++ require) = true →
      HardLink env require src = ((src ++ require, none), [])) ∧
    (∀ ev ∈ (HardLink env require src).2, ∃ newname, ev = FsEvent.link src newname) ∧
    (∀ aenv : ArjEnv, ∀ x : Extractor, ∀ targets : List String,
      ∀ st prog name evs,
      aenv.dstStat = some st → st.isDir = true → aenv.progPath = some prog →
      HardLink aenv.link ".arj" x.Source = ((name, none), evs) → name ≠ "" →
      (ExtractorARJ aenv x targets).2 =
        evs ++ [FsEvent.run prog ""
            (["x", "-y", name] ++ targets ++ ["-ht" ++ x.Destination])]
          ++ [FsEvent.remove name]) := by
  refine ⟨?_, ?_, ?_, ?_, ?_⟩
  · intro h1 h2
    simp [HardLink, h1, h2]
  · intro h1 h2 h3 h4 h5 h6
    simp [HardLink, h1, h2, h3, h4, h5, h6]
  · intro h1 h2 h3
    simp [HardLink, h1, h2, h3]
  · intro ev hev
    by_cases h1 : filepathExt require = ""
    · simp [HardLink, h1] at hev
    · by_cases h2 : equalFold (filepathExt src) require = true
      · simp [HardLink, h1, h2] at hev
      · by_cases h3 : env.lstatOk (src ++ require) = true
        · simp [HardLink, h1, h2, h3] at hev
        · by_cases h4 : env.statNotExist (src ++ require) = true
          · by_cases h5 : env.absOk = true
            · by_cases h6 : env.linkOk = true
              · simp [HardLink, h1, h2, h3, h4, h5, h6] at hev
                exact ⟨_, hev⟩
              · simp [HardLink, h1, h2, h3, h4, h5, h6] at hev
            · simp [HardLink, h1, h2, h3, h4, h5] at hev
          · simp [HardLink, h1, h2, h3, h4] at hev
  · intro aenv x targets st prog name evs h1 h2 h3 h4 h5
    cases h6 : aenv.runErr with
    | none => simp [ExtractorARJ, h1, h2, h3, h4, h5, h6]
    | some e =>
      by_cases h7 : aenv.stderr = "" <;>
        simp [ExtractorARJ, h1, h2, h3, h4, h5, h6, h7]

/-- Witness for C7: a fresh link is created for an extension-less source
and the ARJ extractor removes it after the subprocess call. -/
theorem C7_hardlink_and_arj_w :
    HardLink ⟨fun _ => false, fun _ => true, true, "/wd", true⟩ ".arj" "ARCHIVE"
      = (("/wd/ARCHIVE.arj", none),
        [FsEvent.link "ARCHIVE" "/wd/ARCHIVE.arj"]) ∧
    (ExtractorARJ ⟨some ⟨true, 0⟩, some "/bin/arj",
        ⟨fun _ => false, fun _ => true, true, "/wd", true⟩, none, ""⟩
        ⟨"ARCHIVE", "/dest"⟩ []).2 =
      [FsEvent.link "ARCHIVE" "/wd/ARCHIVE.arj"] ++
        [FsEvent.run "/bin/arj" "" (["x", "-y", "/wd/ARCHIVE.arj"] ++ [] ++
          ["-ht/dest"])] ++ [FsEvent.remove "/wd/ARCHIVE.arj"] :=
  ⟨(C7_hardlink_and_arj ⟨fun _ => false, fun _ => true, true, "/wd", true⟩
      ".arj" "ARCHIVE").2.1 (by decide) (by decide) rfl rfl rfl rfl,
    (C7_hardlink_and_arj ⟨fun _ => false, fun _ => true, true, "/wd", true⟩
      ".arj" "ARCHIVE").2.2.2.2 _ ⟨"ARCHIVE", "/dest"⟩ [] ⟨true, 0⟩ "/bin/arj"
      "/wd/ARCHIVE.arj" [FsEvent.link "ARCHIVE" "/wd/ARCHIVE.arj"]
      rfl rfl rfl (by rfl) (by decide)⟩

/-- Claim C8: `pkzip.ExitStatus` (spec-modelled) maps exit code 0 to
Normal, the archive-not-found code 9 to the ZipNotFound diagnostic (whose
display string is "Zip file not found"), and every unrecognized code to
UnknownStatus without erroring; and `rezip.Test` accepts a failing test
subprocess exactly when its status classifies as Normal or Warning. -/
theorem C8_exit_status_and_rezip_test :
    ExitStatus 0 = .Normal ∧
    ExitStatus 9 = .ZipNotFound ∧
    ExitDiag.str .ZipNotFound = "Zip file not found" ∧
    (∀ code, code ∉ ([0, 1, 2, 3, 4, 5, 6, 7, 8, 9, 10, 11, 50, 51, 80, 81] :
      List Nat) → ExitStatus code = .UnknownStatus) ∧
    (∀ env : TestEnv, ∀ path inf code,
      env.unzipPath = some path → env.statResult = some inf →
      inf.isDir = false → inf.size ≠ 0 → env.runExit = some code →
      (rezipTest env = none ↔
        (ExitStatus code = .Normal ∨ ExitStatus code = .Warning))) := by
  refine ⟨rfl, rfl, rfl, ?_, ?_⟩
  · intro code hc
    unfold ExitStatus
    split
    any_goals rfl
    all_goals simp_all
  · intro env path inf code h1 h2 h3 h4 h5
    cases hd : ExitStatus code <;>
      simp [rezipTest, h1, h2, h3, h4, h5, hd]

/-- Witness for C8 at exit codes 1 (warning) and 999 (unrecognized). -/
theorem C8_exit_status_and_rezip_test_w :
    ExitStatus 999 = .UnknownStatus ∧
    (rezipTest ⟨some "/bin/unzip", some ⟨false, 10⟩, some 1⟩ = none ↔
      (ExitStatus 1 = .Normal ∨ ExitStatus 1 = .Warning)) :=
  ⟨C8_exit_status_and_rezip_test.2.2.2.1 999 (by decide),
    C8_exit_status_and_rezip_test.2.2.2.2 _ "/bin/unzip" ⟨false, 10⟩ 1
      rfl rfl rfl (by decide) rfl⟩

/-- Claim C9: `Extractor.Zip7` re-probes the source's magic type and, when
the probe does not yield ".7z" (or errors), returns a failure — the
unsupported-extension error `ErrExt` in the mismatch case — without running
the extraction subprocess. -/
theorem C9_zip7_rejects_non_7z (env : Zip7Env) (x : Extractor)
    (targets : List String) (prog : String)
    (hprog : env.progPath = some prog) (hdst : x.Destination ≠ "") :
    (∀ ext, env.magic = .ok ext → ext ≠ ".7z" →
      (ExtractorZip7 env x targets).1 = .error (.wrap x.Source .errExt) ∧
      errorsIs (GoErr.wrap x.Source .errExt) .errExt = true ∧
      (ExtractorZip7 env x targets).2 = []) ∧
    (∀ e, env.magic = .error e →
      (ExtractorZip7 env x targets).1 = .error (.wrap "extractor 7z" e) ∧
      (ExtractorZip7 env x targets).2 = []) := by
  constructor
  · intro ext h1 h2
    refine ⟨?_, errorsIs_wrap_of _ _ _ (errorsIs_self _), ?_⟩ <;>
      simp [ExtractorZip7, hprog, hdst, h1, h2]
  · intro e h1
    exact ⟨by simp [ExtractorZip7, hprog, hdst, h1],
      by simp [ExtractorZip7, hprog, hdst, h1]⟩

/-- Witness for C9: a ZIP-probed source is refused with no subprocess run. -/
theorem C9_zip7_rejects_non_7z_w :
    (ExtractorZip7 ⟨some "/bin/7zz", .ok ".zip", none, ""⟩
        ⟨"FILE.BIN", "/dest"⟩ []).1 = .error (.wrap "FILE.BIN" .errExt) ∧
    errorsIs (GoErr.wrap "FILE.BIN" .errExt) .errExt = true ∧
    (ExtractorZip7 ⟨some "/bin/7zz", .ok ".zip", none, ""⟩
        ⟨"FILE.BIN", "/dest"⟩ []).2 = [] :=
  (C9_zip7_rejects_non_7z ⟨some "/bin/7zz", .ok ".zip", none, ""⟩
      ⟨"FILE.BIN", "/dest"⟩ [] "/bin/7zz" rfl (by decide)).1
    ".zip" rfl (by decide)

/-- Claim C10 counterexample: the current ARJ reader applies no blank-entry
filter — on this concrete `arj l` output whose data row starts with twelve
spaces, `Content.ARJ` succeeds and returns a whitespace-only entry. -/
theorem C10_counterexample_arj_blank_entry :
    contentARJ ⟨some "/bin/arj",
        "Filename       Original\n------------ ----------\n            ABC\n",
        "", none⟩
      ⟨fun _ => true, fun _ => false, true, "/wd", true⟩ "TEST"
      = some (.ok ["            "]) ∧
    isBlank "            " = true := by
  exact ⟨rfl, by decide⟩

/-- Claim C10 as amended: the commander fallback of `List` and the Zip,
Rar, Tar and LHA content readers never return an empty or whitespace-only
entry (each deletes entries that trim to the empty string before
returning); `List`'s walk branch returns the walked relative paths
unfiltered, and the ARJ reader returns the fixed-width filename column
without the blank filter. -/
theorem C10_readers_no_blank (renv : ReadEnv)
    (readResult : Except GoErr (List String)) :
    (∀ files, commander readResult = .ok files → ∀ f ∈ files, isBlank f = false) ∧
    (∀ files, contentZip renv = .ok files → ∀ f ∈ files, isBlank f = false) ∧
    (∀ files, contentRar renv = .ok files → ∀ f ∈ files, isBlank f = false) ∧
    (∀ files, contentTar renv = .ok files → ∀ f ∈ files, isBlank f = false) ∧
    (∀ files, contentLHA renv = .ok files → ∀ f ∈ files, isBlank f = false) ∧
    (∀ walked readRes, listFiles none readRes = commander readRes ∧
      listFiles (some walked) readRes = .ok walked) := by
  refine ⟨?_, ?_, ?_, ?_, ?_, fun walked readRes => ⟨rfl, rfl⟩⟩
  · intro files hfiles f hf
    cases hr : readResult with
    | error e => simp [commander, hr] at hfiles
    | ok fs =>
      rw [hr] at hfiles
      simp only [commander] at hfiles
      cases hfiles
      exact deleteBlank_no_blank fs f hf
  · intro files hfiles f hf
    unfold contentZip at hfiles
    split at hfiles
    · simp at hfiles
    · split at hfiles
      · split at hfiles
        · cases hfiles
          simp at hf
        · simp at hfiles
      · split at hfiles
        · simp at hfiles
        · cases hfiles
          exact deleteBlank_no_blank _ f hf
  · intro files hfiles f hf
    unfold contentRar at hfiles
    split at hfiles
    · simp at hfiles
    · split at hfiles
      · simp at hfiles
      · split at hfiles
        · simp at hfiles
        · cases hfiles
          exact deleteBlank_no_blank _ f hf
  · intro files hfiles f hf
    unfold contentTar at hfiles
    split at hfiles
    · simp at hfiles
    · split at hfiles
      · simp at hfiles
      · split at hfiles
        · simp at hfiles
        · cases hfiles
          exact deleteBlank_no_blank _ f hf
  · intro files hfiles f hf
    unfold contentLHA at hfiles
    split at hfiles
    · simp at hfiles
    · split at hfiles
      · simp at hfiles
      · split at hfiles
        · simp at hfiles
        · cases hfiles
          exact lhaFilesAux_no_blank _ 0 [] (by simp) f hf

/-- Witness for C10: a concrete successful `unrar lb` read. -/
theorem C10_readers_no_blank_w :
    contentRar ⟨some "/bin/unrar", "A\nB\n\n", "", none⟩ = .ok ["A", "B"] ∧
    (∀ f ∈ ["A", "B"], isBlank f = false) :=
  ⟨rfl, (C10_readers_no_blank ⟨some "/bin/unrar", "A\nB\n\n", "", none⟩
    (.ok [])).2.2.1 ["A", "B"] rfl⟩

end Archive
